import Mathlib

/-!
Dashboard (frontend/src/App.js): report-to-graph derivation and upload session.

A shallow embedding of the `Dashboard` component of `frontend/src/App.js`:

* `Dashboard.elements`         — the `elements` callback (lines 35-68),
* `Dashboard.topSuspicious`    — the side panel's `suspicious_accounts.slice(0, 10)` (line 167),
* `Dashboard.handleFileUpload` — the async upload handler (lines 11-32), split at its
  suspension points,
* `Dashboard.render`           — the component's `return` (lines 80-219), as far as it
  reads the state.

JavaScript arrays are lists, object literals are association lists from key to value,
and an out-of-range array read is the value `undefined`.
-/

namespace Dashboard

/-! ## Data model of the report (the JSON body the component reads) -/

/-- The `summary` object of a report. -/
structure Summary where
  total_accounts_analyzed : Nat
  suspicious_accounts_flagged : Nat
  fraud_rings_detected : Nat
  processing_time_seconds : Rat
  deriving DecidableEq, Repr

/-- One entry of `suspicious_accounts`. -/
structure SuspiciousAccount where
  account_id : String
  suspicion_score : Rat
  detected_patterns : List String
  deriving DecidableEq, Repr

/-- One entry of `fraud_rings`. -/
structure FraudRing where
  ring_id : String
  pattern_type : String
  risk_score : Rat
  member_accounts : List String
  deriving DecidableEq, Repr

/-- The report held in the `data` state variable. -/
structure Report where
  summary : Summary
  suspicious_accounts : List SuspiciousAccount
  fraud_rings : List FraudRing
  deriving DecidableEq, Repr

/-! ## Values and elements handed to the graph component -/

/-- The JavaScript values that occur as properties of an element's `data` object. -/
inductive Value where
  | undefined
  | bool (b : Bool)
  | num (q : Rat)
  | str (s : String)
  | strs (xs : List String)
  deriving DecidableEq, Repr

/-- One entry of the array returned by `elements`: the object `{ data: { ... } }`,
kept as the key/value pairs of its `data` object in the order the literal writes them. -/
structure Element where
  data : List (String × Value)
  deriving DecidableEq, Repr

/-- Property read `el.data[key]`: the value stored under `key`, `undefined` when the
object has no such property. -/
def Element.get (el : Element) (key : String) : Value :=
  match el.data.lookup key with
  | some v => v
  | none => Value.undefined

/-- Test `key in el.data`. -/
def Element.has (el : Element) (key : String) : Bool :=
  (el.data.lookup key).isSome

/-- Array read `xs[i]` on an array of strings: `undefined` when `i` is out of range. -/
def index (xs : List String) (i : Nat) : Value :=
  match xs[i]? with
  | some s => Value.str s
  | none => Value.undefined

/-! ## `elements` (App.js lines 35-68) -/

/-- The object pushed onto `nodes` for one suspicious account (lines 46-54). -/
def nodeElement (acc : SuspiciousAccount) : Element :=
  { data := [ ("id", Value.str acc.account_id),
              ("label", Value.str acc.account_id),
              ("score", Value.num acc.suspicion_score),
              ("patterns", Value.strs acc.detected_patterns),
              ("isSuspicious", Value.bool true) ] }

/-- The object pushed onto `edges` at step `i` of the inner loop (lines 61-63). -/
def edgeElement (ring : FraudRing) (i : Nat) : Element :=
  { data := [ ("source", index ring.member_accounts i),
              ("target", index ring.member_accounts (i + 1)) ] }

/-- The inner loop `for (let i = 0; i < ring.member_accounts.length - 1; i++)` of
lines 60-64, at index `i` with the array `edges` built so far. The bound is computed
in the integers, as JavaScript does: it is `-1` for an empty array. `fuel` bounds the
number of iterations still allowed; `ringEdges` starts the loop with as many as the
array has entries, which `ringLoop_fuel` shows is never exhausted. -/
def ringLoop (ring : FraudRing) : Nat → Nat → List Element → List Element
  | 0, _, edges => edges
  | fuel + 1, i, edges =>
    if (i : Int) < (ring.member_accounts.length : Int) - 1 then
      ringLoop ring fuel (i + 1) (edges ++ [edgeElement ring i])
    else
      edges

/-- The body of `data.fraud_rings.forEach(ring => ...)` (lines 59-65) for one ring:
the array `edges` after the inner loop has run from `i = 0`. -/
def ringEdges (edges : List Element) (ring : FraudRing) : List Element :=
  ringLoop ring ring.member_accounts.length 0 edges

/-- The set built on line 42, `new Set(data.suspicious_accounts.map(a => a.account_id))`:
the distinct ids in first-occurrence order. -/
def suspiciousIds (data : Report) : List String :=
  (data.suspicious_accounts.map fun a => a.account_id).eraseDups

/-- The `elements` callback. `data` is the component's state variable, `none` when it
is `null`. -/
def elements (data : Option Report) : List Element :=
  match data with
  | none => []
  | some data =>
    let nodes : List Element := if data.summary.total_accounts_analyzed > 0 then [] else []
    let edges : List Element := []
    let _suspiciousIds := suspiciousIds data
    let nodes := data.suspicious_accounts.foldl (fun nodes acc => nodes ++ [nodeElement acc]) nodes
    let edges := data.fraud_rings.foldl ringEdges edges
    nodes ++ edges

/-! ## Ranking shown in the side panel (App.js line 167) -/

/-- The array method `Array.prototype.slice(start, end)` for non-negative integer arguments: both are
clamped to the length, and the entries from the clamped start up to (not including)
the clamped end are copied in order. -/
def slice {α : Type} (xs : List α) (start stop : Nat) : List α :=
  let k := min start xs.length
  let final := min stop xs.length
  (xs.drop k).take (final - k)

/-- The accounts listed under "Top Suspicious Accounts":
`data.suspicious_accounts.slice(0, 10)`. -/
def topSuspicious (data : Report) : List SuspiciousAccount :=
  slice data.suspicious_accounts 0 10

/-! ## `handleFileUpload` (App.js lines 11-32) -/

/-- A file of the picker's `FileList`. -/
structure File where
  name : String
  deriving DecidableEq, Repr

/-- The component's state variables (lines 6-8). `Body` is the type of the non-null
values `response.json()` resolves to; `data = none` is `data === null`. The handler
stores what it received without reading it. -/
structure State (Body : Type) where
  data : Option Body
  loading : Bool
  selectedNode : Option String
  deriving DecidableEq, Repr

/-- How the two awaited promises of lines 20-24 settle. -/
inductive Outcome (Body : Type) where
  /-- The call to `fetch` rejects: the request could not complete. -/
  | fetchRejected
  /-- The call to `fetch` resolves with a response of this status, `response.json()` rejects. -/
  | jsonRejected (status : Nat)
  /-- The call to `fetch` resolves with a response of this status, `response.json()` resolves
  with `result`, where `none` is the JSON value `null`. -/
  | json (status : Nat) (result : Option Body)
  deriving DecidableEq, Repr

/-- The text of the `alert` on line 28. -/
def alertText : String := "Error processing file. Ensure backend is running."

namespace handleFileUpload

/-- Lines 12-23, up to the first `await`: the state after the synchronous part and the
file posted to `/analyze`, `none` when the handler returned on line 13 before any
request. -/
def start {Body : Type} (files : List File) (s : State Body) : State Body × Option File :=
  match files[0]? with
  | none => (s, none)
  | some file => ({ s with loading := true }, some file)

/-- Lines 24-31, run when the awaited promises have settled, on the state the component
has at that moment: `setData(result)` when both resolved (a `null` result leaves `data`
null), otherwise the `catch` block with its alert; `finally` clears `loading` in either
case. Returns the alerts raised. Nothing between the two awaits writes a state variable,
so the whole of it is one step. -/
def settle {Body : Type} (o : Outcome Body) (s : State Body) : State Body × List String :=
  match o with
  | Outcome.json _ result => ({ { s with data := result } with loading := false }, [])
  | Outcome.jsonRejected _ => ({ s with loading := false }, [alertText])
  | Outcome.fetchRejected => ({ s with loading := false }, [alertText])

end handleFileUpload

/-! ## Rendering (App.js lines 80-219) -/

/-- The non-null JSON values a response body is taken to decode to: an object with the
fields of a report, or an error object with a `detail` text and none of a report's
fields (no `summary`, no `suspicious_accounts`, no `fraud_rings`). Both are objects, so
both are truthy. -/
inductive ResponseBody where
  | report (r : Report)
  | detail (msg : String)
  deriving DecidableEq, Repr

/-- Whether a body has the shape of a report. -/
def ResponseBody.wellFormed : ResponseBody → Bool
  | ResponseBody.report _ => true
  | ResponseBody.detail _ => false

/-- The grid rendered under `data && !loading` (lines 112-217): the four stat cards of
lines 117-120, the graph elements of line 130, the accounts of line 167 and the rings of
the table of line 204. -/
structure Panel where
  accountsAnalyzed : Nat
  suspiciousFlagged : Nat
  fraudRings : Nat
  processingTime : Rat
  graph : List Element
  topAccounts : List SuspiciousAccount
  ringRows : List FraudRing
  deriving DecidableEq, Repr

/-- What the component returns: whether the export button (line 96) and the spinner
(line 105) are shown, and the grid when it is. -/
structure View where
  exportButton : Bool
  spinner : Bool
  panel : Option Panel
  deriving DecidableEq, Repr

/-- The error thrown on line 117 when `data.summary` is `undefined`. -/
def typeErrorText : String := "TypeError: data.summary is undefined (App.js line 117)"

/-- The component body's `return` (lines 80-219) on a state. With `data` null nothing
reads it. With `data` an object and `loading` false, line 117 reads
`data.summary.total_accounts_analyzed`, which throws a TypeError when the object has no
`summary`. -/
def render (s : State ResponseBody) : Except String View :=
  match s.data with
  | none => Except.ok { exportButton := false, spinner := s.loading, panel := none }
  | some body =>
    if s.loading then
      Except.ok { exportButton := true, spinner := true, panel := none }
    else
      match body with
      | ResponseBody.report r =>
        Except.ok
          { exportButton := true, spinner := false,
            panel := some
              { accountsAnalyzed := r.summary.total_accounts_analyzed,
                suspiciousFlagged := r.summary.suspicious_accounts_flagged,
                fraudRings := r.summary.fraud_rings_detected,
                processingTime := r.summary.processing_time_seconds,
                graph := elements (some r),
                topAccounts := topSuspicious r,
                ringRows := r.fraud_rings } }
      | ResponseBody.detail _ => Except.error typeErrorText

/-! ## The component in its environment -/

/-- The component together with what it has done to the outside: whether it is still
mounted, every request issued so far (request `k` is `requests[k]`), the invocations of
`handleFileUpload` suspended at an `await`, and the alerts raised. -/
structure World where
  state : State ResponseBody
  mounted : Bool
  requests : List File
  pending : List Nat
  alerts : List String
  deriving DecidableEq, Repr

/-- What can happen to the component: the file input changes, or the promises awaited
by invocation `k` settle. -/
inductive Event where
  | change (files : List File)
  | settled (k : Nat) (o : Outcome ResponseBody)

/-- A world with the given state, mounted, and nothing issued yet. -/
def World.fresh (s : State ResponseBody) : World :=
  { state := s, mounted := true, requests := [], pending := [], alerts := [] }

/-- The re-render that follows a handler's state writes: the component takes the new
state, and when rendering it throws (there is no error boundary) it is unmounted. A
render between `setData` and `setLoading(false)` would have `loading` true and cannot
throw, so only the render of the final state is modelled. -/
def commit (w : World) (s : State ResponseBody) : World :=
  match render s with
  | Except.ok _ => { w with state := s }
  | Except.error _ => { w with state := s, mounted := false }

/-- One turn of the event loop. An unmounted component has no file input, and the state
writes of a handler that resumes after the unmount have no effect; its alert is still
raised. -/
def step (w : World) : Event → World
  | Event.change files =>
    if w.mounted then
      match handleFileUpload.start files w.state with
      | (s, none) => { w with state := s }
      | (s, some file) =>
        commit { w with requests := w.requests ++ [file],
                        pending := w.pending ++ [w.requests.length] } s
    else
      w
  | Event.settled k o =>
    if k ∈ w.pending then
      let (s, alerts) := handleFileUpload.settle o w.state
      let w1 := { w with pending := w.pending.erase k, alerts := w.alerts ++ alerts }
      if w.mounted then commit w1 s else w1
    else
      w

/-- The events handled in order. -/
def run (w : World) (events : List Event) : World :=
  events.foldl step w

/-- One upload from the `change` event to the handling of its response, with no other
event in between. With an empty selection no invocation is suspended and nothing
settles. -/
def handleFileUpload (files : List File) (o : Outcome ResponseBody) (w : World) : World :=
  match w.mounted, files[0]? with
  | true, some _ => run w [Event.change files, Event.settled w.requests.length o]
  | _, _ => run w [Event.change files]

/-- An outcome the handler deals with as written: a failure (the `catch` path), or a
response with a 2xx status whose body is a report. -/
def Outcome.reportOrFailure : Outcome ResponseBody → Bool
  | Outcome.fetchRejected => true
  | Outcome.jsonRejected _ => true
  | Outcome.json status (some (ResponseBody.report _)) => decide (200 ≤ status ∧ status < 300)
  | Outcome.json _ _ => false

/-- A state that holds a report or nothing. -/
def State.reportOrNone (s : State ResponseBody) : Bool :=
  match s.data with
  | none => true
  | some (ResponseBody.report _) => true
  | some (ResponseBody.detail _) => false

/-! ## Reference notions the statements compare the code with -/

/-- The pairs `(xs[i], xs[i+1])` for `i = 0 .. length - 2`, in increasing `i`. -/
def consecutivePairs (xs : List String) : List (String × String) :=
  xs.zip xs.tail

/-- An edge between two account ids: an element with exactly `source` and `target`. -/
def link (p : String × String) : Element :=
  { data := [("source", Value.str p.1), ("target", Value.str p.2)] }

/-- The first `n` entries of the array `elements` returns, where `n` is the number of
suspicious accounts: the part copied from the local array `nodes`. -/
def nodesOf (r : Report) : List Element :=
  (elements (some r)).take r.suspicious_accounts.length

/-- The entries of the array `elements` returns after the first `n`: the part copied
from the local array `edges`. -/
def edgesOf (r : Report) : List Element :=
  (elements (some r)).drop r.suspicious_accounts.length

/-! ## Example reports -/

/-- The scenario report: one suspicious account `AC1`, one ring `R1` over
`AC1, AC2, AC3`. -/
def exampleReport : Report :=
  { summary := { total_accounts_analyzed := 1000, suspicious_accounts_flagged := 1,
                 fraud_rings_detected := 1, processing_time_seconds := 0.5 },
    suspicious_accounts :=
      [ { account_id := "AC1", suspicion_score := 87.5, detected_patterns := ["fan-in"] } ],
    fraud_rings :=
      [ { ring_id := "R1", pattern_type := "layering", risk_score := 92.0,
          member_accounts := ["AC1", "AC2", "AC3"] } ] }

/-- A ring `A, B, C` of which only `A` is a suspicious account. -/
def danglingReport : Report :=
  { summary := { total_accounts_analyzed := 3, suspicious_accounts_flagged := 1,
                 fraud_rings_detected := 1, processing_time_seconds := 0 },
    suspicious_accounts :=
      [ { account_id := "A", suspicion_score := 50, detected_patterns := [] } ],
    fraud_rings :=
      [ { ring_id := "R1", pattern_type := "cycle", risk_score := 10,
          member_accounts := ["A", "B", "C"] } ] }

/-- A report that lists the account `A` twice, with scores 1 and 2. -/
def duplicateReport : Report :=
  { summary := { total_accounts_analyzed := 1, suspicious_accounts_flagged := 2,
                 fraud_rings_detected := 0, processing_time_seconds := 0 },
    suspicious_accounts :=
      [ { account_id := "A", suspicion_score := 1, detected_patterns := ["first"] },
        { account_id := "A", suspicion_score := 2, detected_patterns := ["second"] } ],
    fraud_rings := [] }

/-- A report with three suspicious accounts and no ring. -/
def threeReport : Report :=
  { summary := { total_accounts_analyzed := 3, suspicious_accounts_flagged := 3,
                 fraud_rings_detected := 0, processing_time_seconds := 0 },
    suspicious_accounts :=
      [ { account_id := "X", suspicion_score := 3, detected_patterns := [] },
        { account_id := "Y", suspicion_score := 9, detected_patterns := [] },
        { account_id := "Z", suspicion_score := 1, detected_patterns := [] } ],
    fraud_rings := [] }

/-- The state of a freshly mounted component. -/
def State.initial {Body : Type} : State Body :=
  { data := none, loading := false, selectedNode := none }

/-! ## Helper lemmas -/

theorem foldl_push {α β : Type} (f : α → β) (xs : List α) (init : List β) :
    xs.foldl (fun out a => out ++ [f a]) init = init ++ xs.map f := by
  induction xs generalizing init with
  | nil => simp
  | cons a xs ih => simp [ih]

/-- The loop from index `i` appends the elements for `i, i+1, ..` up to the bound,
whenever the fuel covers the iterations left. -/
theorem ringLoop_fuel (ring : FraudRing) (fuel i : Nat) (edges : List Element)
    (h : ring.member_accounts.length - 1 - i ≤ fuel) :
    ringLoop ring fuel i edges
      = edges ++ (List.range' i (ring.member_accounts.length - 1 - i)).map (edgeElement ring) := by
  induction fuel generalizing i edges with
  | zero =>
    have h0 : ring.member_accounts.length - 1 - i = 0 := by omega
    simp [ringLoop, h0]
  | succ fuel ih =>
    unfold ringLoop
    split
    · next hlt =>
      have h1 : ring.member_accounts.length - 1 - i
          = (ring.member_accounts.length - 1 - (i + 1)) + 1 := by omega
      rw [ih (i + 1) _ (by omega), h1, List.range'_succ]
      simp
    · next hge =>
      have h0 : ring.member_accounts.length - 1 - i = 0 := by omega
      simp [h0]

theorem ringEdges_eq (edges : List Element) (ring : FraudRing) :
    ringEdges edges ring
      = edges ++ (List.range (ring.member_accounts.length - 1)).map (edgeElement ring) := by
  unfold ringEdges
  rw [ringLoop_fuel ring _ 0 edges (by omega), List.range_eq_range']
  simp

/-- The elements the loop pushes for a list of members are the links of its
consecutive pairs. -/
theorem range_map_edgeElement (ring : FraudRing) :
    (List.range (ring.member_accounts.length - 1)).map (edgeElement ring)
      = (consecutivePairs ring.member_accounts).map link := by
  apply List.ext_getElem
  · simp [consecutivePairs]
  · intro i h1 h2
    simp [consecutivePairs] at h1 h2 ⊢
    simp [edgeElement, link, index, List.getElem?_eq_getElem, h2, show i < ring.member_accounts.length by omega,
      show i + 1 < ring.member_accounts.length by omega]

theorem foldl_ringEdges (rings : List FraudRing) (init : List Element) :
    rings.foldl ringEdges init
      = init ++ rings.flatMap fun ring => (consecutivePairs ring.member_accounts).map link := by
  induction rings generalizing init with
  | nil => simp
  | cons ring rings ih =>
    simp [ih, ringEdges_eq, range_map_edgeElement, List.flatMap_cons]

/-- The array `elements` returns: one node element per suspicious account, then the
links of every ring. -/
theorem elements_some (r : Report) :
    elements (some r)
      = r.suspicious_accounts.map nodeElement
        ++ r.fraud_rings.flatMap fun ring => (consecutivePairs ring.member_accounts).map link := by
  simp [elements, foldl_push, foldl_ringEdges]

theorem nodesOf_eq (r : Report) : nodesOf r = r.suspicious_accounts.map nodeElement := by
  simp [nodesOf, elements_some]

theorem edgesOf_eq (r : Report) :
    edgesOf r = r.fraud_rings.flatMap fun ring => (consecutivePairs ring.member_accounts).map link := by
  simp [edgesOf, elements_some]

theorem mem_consecutivePairs_get {xs : List String} {i : Nat} {a b : String}
    (ha : xs[i]? = some a) (hb : xs[i + 1]? = some b) :
    (consecutivePairs xs)[i]? = some (a, b) := by
  simp [consecutivePairs, List.getElem?_zip_eq_some, ha, List.getElem?_tail, hb]

theorem length_consecutivePairs (xs : List String) :
    (consecutivePairs xs).length = xs.length - 1 := by
  simp [consecutivePairs]

/-! ## The graph derivation: edges -/

/-- C1: the edge part of the array `elements` returns is the concatenation, over the rings
in `fraud_rings` order, of the links (member_accounts[i], member_accounts[i+1]) for
i = 0 .. length-2 in increasing i. Per ring: the loop appends exactly those links to the
array built so far, their number is length - 1 (zero for a ring of 0 or 1 members), the
i-th has members i and i+1 as source and target, and any iteration budget of at least
the number of members gives the same result as the one the embedding starts with. -/
theorem elements_edges_consecutive_pairs (r : Report) :
    edgesOf r
        = r.fraud_rings.flatMap (fun ring => (consecutivePairs ring.member_accounts).map link)
      ∧ (∀ (ring : FraudRing) (edges : List Element),
          ringEdges edges ring = edges ++ (consecutivePairs ring.member_accounts).map link)
      ∧ (∀ ring : FraudRing, (ringEdges [] ring).length = ring.member_accounts.length - 1)
      ∧ (∀ ring : FraudRing, ring.member_accounts.length ≤ 1 → ringEdges [] ring = [])
      ∧ (∀ (ring : FraudRing) (i : Nat) (a b : String),
          ring.member_accounts[i]? = some a → ring.member_accounts[i + 1]? = some b →
          (ringEdges [] ring)[i]? = some (link (a, b))
            ∧ (link (a, b)).get "source" = Value.str a
            ∧ (link (a, b)).get "target" = Value.str b)
      ∧ (∀ (ring : FraudRing) (fuel : Nat) (edges : List Element),
          ring.member_accounts.length ≤ fuel →
          ringLoop ring fuel 0 edges = ringEdges edges ring) := by
  refine ⟨edgesOf_eq r, ?_, ?_, ?_, ?_, ?_⟩
  · intro ring edges
    rw [ringEdges_eq, range_map_edgeElement]
  · intro ring
    rw [ringEdges_eq, range_map_edgeElement]
    simp [length_consecutivePairs]
  · intro ring h
    rw [ringEdges_eq]
    have h0 : ring.member_accounts.length - 1 = 0 := by omega
    simp [h0]
  · intro ring i a b ha hb
    refine ⟨?_, by simp [link, Element.get, List.lookup], by simp [link, Element.get, List.lookup]⟩
    rw [ringEdges_eq, range_map_edgeElement]
    simp [mem_consecutivePairs_get ha hb]
  · intro ring fuel edges h
    rw [ringLoop_fuel ring fuel 0 edges (by omega), ringEdges_eq, List.range_eq_range']
    simp

/-- C1 at the ring `AC1, AC2, AC3` of the scenario report: the edge pushed at index 1
links `AC2` to `AC3`. -/
theorem elements_edges_consecutive_pairs_witness :
    (ringEdges []
        { ring_id := "R1", pattern_type := "layering", risk_score := 92.0,
          member_accounts := ["AC1", "AC2", "AC3"] })[1]?
      = some (link ("AC2", "AC3")) :=
  ((elements_edges_consecutive_pairs exampleReport).2.2.2.2.1
    { ring_id := "R1", pattern_type := "layering", risk_score := 92.0,
      member_accounts := ["AC1", "AC2", "AC3"] } 1 "AC2" "AC3" (by decide) (by decide)).1

/-! ## The graph derivation: nodes -/

theorem get_nodeElement (a : SuspiciousAccount) :
    (nodeElement a).get "id" = Value.str a.account_id
      ∧ (nodeElement a).get "label" = Value.str a.account_id
      ∧ (nodeElement a).get "score" = Value.num a.suspicion_score
      ∧ (nodeElement a).get "patterns" = Value.strs a.detected_patterns
      ∧ (nodeElement a).get "isSuspicious" = Value.bool true := by
  simp [nodeElement, Element.get, List.lookup]

theorem has_link (p : String × String) :
    (link p).has "id" = false ∧ (link p).has "isSuspicious" = false
      ∧ (link p).has "ring_id" = false ∧ (link p).get "id" = Value.undefined
      ∧ (link p).get "ring_id" = Value.undefined := by
  simp [link, Element.has, Element.get, List.lookup]

theorem mem_edgesOf {r : Report} {e : Element} (h : e ∈ edgesOf r) :
    ∃ ring ∈ r.fraud_rings, ∃ p ∈ consecutivePairs ring.member_accounts, e = link p := by
  rw [edgesOf_eq] at h
  simp only [List.mem_flatMap, List.mem_map] at h
  obtain ⟨ring, hring, p, hp, rfl⟩ := h
  exact ⟨ring, hring, p, hp, rfl⟩

theorem elements_split (r : Report) : elements (some r) = nodesOf r ++ edgesOf r := by
  simp [nodesOf, edgesOf]

/-- C2: the node part of the array `elements` returns has exactly one node per entry of
`suspicious_accounts`, in the same order: the i-th element of the result is the node of
the i-th entry a, with id = a.account_id, isSuspicious = true, score = a.suspicion_score
and patterns = a.detected_patterns; everything after these entries is an edge, an
element with neither an `id` nor an `isSuspicious` property. -/
theorem elements_nodes_follow_suspicious_accounts (r : Report) :
    elements (some r) = nodesOf r ++ edgesOf r
      ∧ (nodesOf r).length = r.suspicious_accounts.length
      ∧ (∀ (i : Nat) (a : SuspiciousAccount), r.suspicious_accounts[i]? = some a →
          ∃ e, (elements (some r))[i]? = some e
            ∧ (nodesOf r)[i]? = some e
            ∧ e.get "id" = Value.str a.account_id
            ∧ e.get "isSuspicious" = Value.bool true
            ∧ e.get "score" = Value.num a.suspicion_score
            ∧ e.get "patterns" = Value.strs a.detected_patterns)
      ∧ (∀ e ∈ edgesOf r, e.has "id" = false ∧ e.has "isSuspicious" = false) := by
  refine ⟨elements_split r, by simp [nodesOf_eq], ?_, ?_⟩
  · intro i a ha
    have hn : (nodesOf r)[i]? = some (nodeElement a) := by
      simp [nodesOf_eq, List.getElem?_map, ha]
    have hi : i < (nodesOf r).length := by
      by_contra hc
      rw [List.getElem?_eq_none (by omega)] at hn
      exact absurd hn (by simp)
    refine ⟨nodeElement a, ?_, hn, (get_nodeElement a).1, (get_nodeElement a).2.2.2.2,
      (get_nodeElement a).2.2.1, (get_nodeElement a).2.2.2.1⟩
    rw [elements_split, List.getElem?_append_left hi, hn]
  · intro e he
    obtain ⟨ring, _, p, _, rfl⟩ := mem_edgesOf he
    exact ⟨(has_link p).1, (has_link p).2.1⟩

/-! ## The graph derivation: ring members that are not suspicious accounts -/

/-- C3: when a ring has a member x that is no `account_id` of `suspicious_accounts`, the
array `elements` returns (a total function: there is no error path) still contains the
link of every consecutive pair of that ring, and none of its elements has x as its id;
for the ring A, B, C with only A suspicious it is the node A followed by the links
A -> B and B -> C. -/
theorem elements_dangling_members (r : Report) (ring : FraudRing) (x : String)
    (hring : ring ∈ r.fraud_rings) (_hx : x ∈ ring.member_accounts)
    (hno : ∀ a ∈ r.suspicious_accounts, a.account_id ≠ x) :
    (∀ p ∈ consecutivePairs ring.member_accounts, link p ∈ elements (some r))
      ∧ (∀ p ∈ consecutivePairs ring.member_accounts, link p ∈ edgesOf r)
      ∧ (∀ e ∈ elements (some r), e.get "id" ≠ Value.str x)
      ∧ elements (some danglingReport)
          = [ nodeElement { account_id := "A", suspicion_score := 50, detected_patterns := [] },
              link ("A", "B"), link ("B", "C") ] := by
  have hedge : ∀ p ∈ consecutivePairs ring.member_accounts, link p ∈ edgesOf r := by
    intro p hp
    rw [edgesOf_eq]
    simp only [List.mem_flatMap, List.mem_map]
    exact ⟨ring, hring, p, hp, rfl⟩
  refine ⟨?_, hedge, ?_, by rfl⟩
  · intro p hp
    rw [elements_split]
    exact List.mem_append_right _ (hedge p hp)
  · intro e he
    rw [elements_split, List.mem_append] at he
    rcases he with he | he
    · rw [nodesOf_eq, List.mem_map] at he
      obtain ⟨a, ha, rfl⟩ := he
      rw [(get_nodeElement a).1]
      intro h
      exact hno a ha (Value.str.inj h)
    · obtain ⟨_, _, p, _, rfl⟩ := mem_edgesOf he
      rw [(has_link p).2.2.2.1]
      exact fun h => Value.noConfusion h

/-- C3 at the ring A, B, C with only A suspicious, for the member B: both links are in
the result and no element has the id B. -/
theorem elements_dangling_members_witness :
    (∀ p ∈ consecutivePairs ["A", "B", "C"], link p ∈ elements (some danglingReport))
      ∧ (∀ e ∈ elements (some danglingReport), e.get "id" ≠ Value.str "B") :=
  have h := elements_dangling_members danglingReport
    { ring_id := "R1", pattern_type := "cycle", risk_score := 10,
      member_accounts := ["A", "B", "C"] } "B"
    (by simp [danglingReport]) (by simp) (by simp [danglingReport])
  ⟨h.1, h.2.2.1⟩

/-! ## The graph derivation: repeated account ids -/

theorem nodesOf_ids (r : Report) :
    (nodesOf r).map (fun e => e.get "id")
      = r.suspicious_accounts.map (fun a => Value.str a.account_id) := by
  rw [nodesOf_eq, List.map_map]
  apply List.map_congr_left
  intro a _
  exact (get_nodeElement a).1

/-- C4, as stated, fails: for a report that lists the account A twice (scores 1 and 2)
the result has two nodes with the id A, so the node ids are not pairwise distinct, and
the first of them carries the score and patterns of the first entry, not of the last. -/
theorem elements_duplicate_ids_counterexample :
    nodesOf duplicateReport
        = [ nodeElement { account_id := "A", suspicion_score := 1, detected_patterns := ["first"] },
            nodeElement { account_id := "A", suspicion_score := 2, detected_patterns := ["second"] } ]
      ∧ ¬ ((nodesOf duplicateReport).map (fun e => e.get "id")).Nodup
      ∧ ((nodesOf duplicateReport).filter (fun e => e.get "id" = Value.str "A")).length = 2
      ∧ (∃ e ∈ nodesOf duplicateReport, e.get "id" = Value.str "A"
          ∧ e.get "score" = Value.num 1 ∧ e.get "patterns" = Value.strs ["first"]) := by
  have h : nodesOf duplicateReport
      = [ nodeElement { account_id := "A", suspicion_score := 1, detected_patterns := ["first"] },
          nodeElement { account_id := "A", suspicion_score := 2, detected_patterns := ["second"] } ] := by
    rfl
  refine ⟨h, ?_, ?_, ?_⟩
  · rw [h]
    simp [nodeElement, Element.get, List.lookup]
  · rw [h]
    simp [nodeElement, Element.get, List.lookup]
  · rw [h]
    refine ⟨_, List.mem_cons_self _ _, ?_⟩
    simp [nodeElement, Element.get, List.lookup]

/-- C4, amended: `elements` emits one node per entry of `suspicious_accounts` and merges
nothing. The ids of the nodes are the account ids of the entries in order, so they are
pairwise distinct exactly when the account ids are; an account id listed k times has k
nodes, and the i-th node is the one of the i-th entry, with that entry's score and
patterns. -/
theorem elements_node_ids_distinct_iff (r : Report) :
    (nodesOf r).map (fun e => e.get "id")
        = r.suspicious_accounts.map (fun a => Value.str a.account_id)
      ∧ (((nodesOf r).map (fun e => e.get "id")).Nodup
          ↔ (r.suspicious_accounts.map (fun a => a.account_id)).Nodup)
      ∧ (∀ x : String,
          ((nodesOf r).filter (fun e => e.get "id" = Value.str x)).length
            = (r.suspicious_accounts.filter (fun a => a.account_id = x)).length)
      ∧ (∀ (i : Nat) (a : SuspiciousAccount), r.suspicious_accounts[i]? = some a →
          ∃ e, (nodesOf r)[i]? = some e
            ∧ e.get "id" = Value.str a.account_id
            ∧ e.get "score" = Value.num a.suspicion_score
            ∧ e.get "patterns" = Value.strs a.detected_patterns) := by
  refine ⟨nodesOf_ids r, ?_, ?_, ?_⟩
  · rw [nodesOf_ids]
    have hmap : r.suspicious_accounts.map (fun a => Value.str a.account_id)
        = (r.suspicious_accounts.map (fun a => a.account_id)).map Value.str := by
      simp [List.map_map, Function.comp_def]
    rw [hmap]
    exact List.nodup_map_iff (fun a b h => Value.str.inj h)
  · intro x
    rw [nodesOf_eq, List.filter_map, List.length_map]
    congr 1
    apply List.filter_congr
    intro a _
    simp [Function.comp, (get_nodeElement a).1]
  · intro i a ha
    refine ⟨nodeElement a, by simp [nodesOf_eq, List.getElem?_map, ha], (get_nodeElement a).1,
      (get_nodeElement a).2.2.1, (get_nodeElement a).2.2.2.1⟩

/-! ## The graph derivation: what an edge carries -/

/-- C5, as stated, fails: for the scenario report (suspicious account AC1, ring R1 over
AC1, AC2, AC3) the edges are the two links AC1 -> AC2 and AC2 -> AC3, whose only
properties are `source` and `target`: reading `ring_id` gives `undefined`, not R1. -/
theorem elements_edge_ring_id_counterexample :
    edgesOf exampleReport = [link ("AC1", "AC2"), link ("AC2", "AC3")]
      ∧ (edgesOf exampleReport).map (fun e => e.data.map Prod.fst)
          = [["source", "target"], ["source", "target"]]
      ∧ (edgesOf exampleReport).map (fun e => e.has "ring_id") = [false, false]
      ∧ (edgesOf exampleReport).map (fun e => e.get "ring_id")
          = [Value.undefined, Value.undefined]
      ∧ ¬ (∀ e ∈ edgesOf exampleReport, e.get "ring_id" = Value.str "R1") := by
  decide

/-- C5, amended: every edge of the result carries exactly a `source` and a `target`,
which are consecutive members of one ring of the report, and no `ring_id`; for the
scenario report the edges are exactly AC1 -> AC2 and AC2 -> AC3. -/
theorem elements_edges_carry_source_target (r : Report) :
    (∀ e ∈ edgesOf r,
        e.data.map Prod.fst = ["source", "target"]
          ∧ e.has "ring_id" = false
          ∧ e.get "ring_id" = Value.undefined
          ∧ ∃ ring ∈ r.fraud_rings, ∃ p ∈ consecutivePairs ring.member_accounts,
              e.get "source" = Value.str p.1 ∧ e.get "target" = Value.str p.2)
      ∧ edgesOf exampleReport = [link ("AC1", "AC2"), link ("AC2", "AC3")] := by
  refine ⟨?_, by decide⟩
  intro e he
  obtain ⟨ring, hring, p, hp, rfl⟩ := mem_edgesOf he
  refine ⟨rfl, (has_link p).2.2.1, (has_link p).2.2.2.2, ring, hring, p, hp, ?_, ?_⟩
  · simp [link, Element.get, List.lookup]
  · simp [link, Element.get, List.lookup]

/-! ## The ranking of the side panel -/

theorem slice_zero {α : Type} (xs : List α) (k : Nat) : slice xs 0 k = xs.take k := by
  simp only [slice, Nat.zero_min, List.drop_zero, Nat.sub_zero]
  rw [List.take_eq_take]
  simp [Nat.min_assoc]

/-- C6: the accounts shown in the side panel, `suspicious_accounts.slice(0, 10)`, are
the prefix of `suspicious_accounts` of length min(10, n), unchanged and in the original
order: the whole sequence when n <= 10 (exactly the 3 entries when n = 3) and empty when
n = 0. -/
theorem topSuspicious_first_ten (r : Report) :
    topSuspicious r = r.suspicious_accounts.take (min 10 r.suspicious_accounts.length)
      ∧ topSuspicious r <+: r.suspicious_accounts
      ∧ (topSuspicious r).length = min 10 r.suspicious_accounts.length
      ∧ (∀ i : Nat, i < min 10 r.suspicious_accounts.length →
          (topSuspicious r)[i]? = r.suspicious_accounts[i]?)
      ∧ (r.suspicious_accounts.length ≤ 10 → topSuspicious r = r.suspicious_accounts)
      ∧ (r.suspicious_accounts.length = 3 →
          topSuspicious r = r.suspicious_accounts ∧ (topSuspicious r).length = 3)
      ∧ (r.suspicious_accounts.length = 0 → topSuspicious r = []) := by
  have h : topSuspicious r = r.suspicious_accounts.take 10 := slice_zero _ _
  refine ⟨?_, ?_, ?_, ?_, ?_, ?_, ?_⟩
  · rw [h, List.take_eq_take]; simp
  · rw [h]; exact List.take_prefix _ _
  · rw [h, List.length_take]
  · intro i hi
    rw [h, List.getElem?_take_of_lt (by omega)]
  · intro hn
    rw [h, List.take_of_length_le hn]
  · intro hn
    have : topSuspicious r = r.suspicious_accounts := by
      rw [h, List.take_of_length_le (by omega)]
    exact ⟨this, by rw [this, hn]⟩
  · intro hn
    rw [h, List.length_eq_zero.mp hn]
    rfl

/-- C6 at a report with three suspicious accounts X, Y, Z: the panel lists exactly
those three, in that order. -/
theorem topSuspicious_first_ten_witness :
    topSuspicious threeReport = threeReport.suspicious_accounts
      ∧ (topSuspicious threeReport).map (fun a => a.account_id) = ["X", "Y", "Z"] :=
  ⟨(topSuspicious_first_ten threeReport).2.2.2.2.1 (by decide), by decide⟩

/-! ## The upload handler -/

theorem exampleReport_ne_threeReport : exampleReport ≠ threeReport := by
  intro h
  have h1 : exampleReport.summary.total_accounts_analyzed
      = threeReport.summary.total_accounts_analyzed := by rw [h]
  exact absurd h1 (by decide)

/-- C8: the code at a response with status 400 whose body is the error object with
detail "Invalid CSV". The body is stored as the held report, no alert is raised, and the
render of the resulting state throws on line 117, so the component is unmounted. The
same status with a body that does not decode takes the `catch` path instead: nothing is
stored, the alert is raised and the component stays mounted. -/
theorem handleFileUpload_error_body_stored :
    handleFileUpload [{ name := "tx.csv" }]
        (Outcome.json 400 (some (ResponseBody.detail "Invalid CSV")))
        (World.fresh State.initial)
        = { state := { data := some (ResponseBody.detail "Invalid CSV"), loading := false,
                       selectedNode := none },
            mounted := false, requests := [{ name := "tx.csv" }], pending := [],
            alerts := [] }
      ∧ (ResponseBody.detail "Invalid CSV").wellFormed = false
      ∧ render { data := some (ResponseBody.detail "Invalid CSV"), loading := false,
                 selectedNode := none }
          = Except.error typeErrorText
      ∧ handleFileUpload [{ name := "tx.csv" }] (Outcome.jsonRejected 400)
          (World.fresh State.initial)
          = { state := State.initial, mounted := true, requests := [{ name := "tx.csv" }],
              pending := [], alerts := [alertText] } := by
  refine ⟨by rfl, by rfl, by rfl, by rfl⟩

theorem render_ok {s : State ResponseBody} (h : s.reportOrNone = true ∨ s.loading = true) :
    ∃ v, render s = Except.ok v := by
  obtain ⟨data, loading, sel⟩ := s
  cases data with
  | none => exact ⟨_, rfl⟩
  | some body =>
    cases loading with
    | true => exact ⟨_, rfl⟩
    | false =>
      cases body with
      | report r => exact ⟨_, rfl⟩
      | detail msg => simp [State.reportOrNone] at h

theorem commit_of_ok {w : World} {s : State ResponseBody}
    (h : s.reportOrNone = true ∨ s.loading = true) : commit w s = { w with state := s } := by
  obtain ⟨v, hv⟩ := render_ok h
  simp [commit, hv]

/-- The events of two uploads S1 then S2 up to the handling of S2's response: on a fresh
world the invocations are numbered 0 and 1. -/
theorem run_second_response (s : State ResponseBody) (f1 f2 : File) (o2 : Outcome ResponseBody)
    (hs : s.reportOrNone = true) (h2 : o2.reportOrFailure = true) :
    run (World.fresh s) [Event.change [f1], Event.change [f2], Event.settled 1 o2]
      = { state := (handleFileUpload.settle o2 { s with loading := true }).1,
          mounted := true, requests := [f1, f2], pending := [0],
          alerts := (handleFileUpload.settle o2 { s with loading := true }).2 }
    ∧ (handleFileUpload.settle o2 { s with loading := true }).1.reportOrNone = true := by
  have hl : ∀ w : World, commit w { s with loading := true }
      = { w with state := { s with loading := true } } :=
    fun w => commit_of_ok (Or.inr rfl)
  have h3 : (handleFileUpload.settle o2 { s with loading := true }).1.reportOrNone = true := by
    obtain ⟨data, loading, sel⟩ := s
    cases o2 with
    | fetchRejected => simpa [handleFileUpload.settle, State.reportOrNone] using hs
    | jsonRejected status => simpa [handleFileUpload.settle, State.reportOrNone] using hs
    | json status result =>
      cases result with
      | none => simp [handleFileUpload.settle, State.reportOrNone]
      | some body =>
        cases body with
        | report r => simp [handleFileUpload.settle, State.reportOrNone]
        | detail msg => simp [Outcome.reportOrFailure] at h2
  refine ⟨?_, h3⟩
  simp only [run, List.foldl, step, World.fresh, handleFileUpload.start, List.getElem?_cons_zero,
    if_true, hl, List.nil_append, List.length_nil, List.length_singleton, List.cons_append]
  simp [commit_of_ok (Or.inl h3)]

/-- C9, as stated, fails: S1 and S2 are submitted in this order, both are answered with
status 200 and a report, S2's response (a report with three accounts) is handled first
and S1's (the scenario report) last. After S2's response the component holds S2's
report; after S1's late response it holds S1's report, which has overwritten S2's. -/
theorem handleFileUpload_late_response_counterexample :
    (run (World.fresh State.initial)
        [ Event.change [{ name := "s1.csv" }], Event.change [{ name := "s2.csv" }],
          Event.settled 1 (Outcome.json 200 (some (ResponseBody.report threeReport))) ]).state
        = { data := some (ResponseBody.report threeReport), loading := false,
            selectedNode := none }
      ∧ (run (World.fresh State.initial)
        [ Event.change [{ name := "s1.csv" }], Event.change [{ name := "s2.csv" }],
          Event.settled 1 (Outcome.json 200 (some (ResponseBody.report threeReport))),
          Event.settled 0 (Outcome.json 200 (some (ResponseBody.report exampleReport))) ]).state
        = { data := some (ResponseBody.report exampleReport), loading := false,
            selectedNode := none }
      ∧ (run (World.fresh State.initial)
        [ Event.change [{ name := "s1.csv" }], Event.change [{ name := "s2.csv" }],
          Event.settled 1 (Outcome.json 200 (some (ResponseBody.report threeReport))),
          Event.settled 0 (Outcome.json 200 (some (ResponseBody.report exampleReport))) ]).mounted
        = true
      ∧ ResponseBody.report exampleReport ≠ ResponseBody.report threeReport := by
  refine ⟨by rfl, by rfl, by rfl, ?_⟩
  intro h
  exact exampleReport_ne_threeReport (ResponseBody.report.inj h)

/-- C9, amended: two submissions S1 then S2, made from a state that holds a report or
nothing, each answered by a failure or by a 2xx response whose body is a report, S2's
response handled before S1's. Nothing is discarded: the state after both is the one
S1's late response produces from the state S2's response left. The component is still
mounted and `loading` is false; when S1's response carries a report, that report is
held, whatever S2's response stored; when S1 failed, the state is the one S2's response
left, holding S2's report when S2 carried one and the report held before when S2 failed
too. -/
theorem handleFileUpload_last_response_wins (s : State ResponseBody) (f1 f2 : File)
    (o1 o2 : Outcome ResponseBody) (hs : s.reportOrNone = true)
    (h1 : o1.reportOrFailure = true) (h2 : o2.reportOrFailure = true) :
    (run (World.fresh s)
        [Event.change [f1], Event.change [f2], Event.settled 1 o2, Event.settled 0 o1]).state
        = (handleFileUpload.settle o1
            (run (World.fresh s)
              [Event.change [f1], Event.change [f2], Event.settled 1 o2]).state).1
      ∧ (run (World.fresh s)
          [Event.change [f1], Event.change [f2], Event.settled 1 o2, Event.settled 0 o1]).mounted
        = true
      ∧ (run (World.fresh s)
          [Event.change [f1], Event.change [f2], Event.settled 1 o2, Event.settled 0 o1]).state.loading
        = false
      ∧ (∀ (status : Nat) (r : Report), o1 = Outcome.json status (some (ResponseBody.report r)) →
          (run (World.fresh s)
            [Event.change [f1], Event.change [f2], Event.settled 1 o2,
              Event.settled 0 o1]).state.data = some (ResponseBody.report r))
      ∧ ((o1 = Outcome.fetchRejected ∨ ∃ status, o1 = Outcome.jsonRejected status) →
          (run (World.fresh s)
            [Event.change [f1], Event.change [f2], Event.settled 1 o2,
              Event.settled 0 o1]).state
            = (run (World.fresh s)
                [Event.change [f1], Event.change [f2], Event.settled 1 o2]).state
          ∧ (∀ (status : Nat) (r : Report),
              o2 = Outcome.json status (some (ResponseBody.report r)) →
              (run (World.fresh s)
                [Event.change [f1], Event.change [f2], Event.settled 1 o2,
                  Event.settled 0 o1]).state.data = some (ResponseBody.report r))
          ∧ ((o2 = Outcome.fetchRejected ∨ ∃ status, o2 = Outcome.jsonRejected status) →
              (run (World.fresh s)
                [Event.change [f1], Event.change [f2], Event.settled 1 o2,
                  Event.settled 0 o1]).state.data = s.data)) := by
  have hrun : run (World.fresh s)
      [Event.change [f1], Event.change [f2], Event.settled 1 o2, Event.settled 0 o1]
      = step (run (World.fresh s) [Event.change [f1], Event.change [f2], Event.settled 1 o2])
          (Event.settled 0 o1) := by
    simp [run]
  obtain ⟨hw, h3⟩ := run_second_response s f1 f2 o2 hs h2
  have h4 : (handleFileUpload.settle o1
      (handleFileUpload.settle o2 { s with loading := true }).1).1.reportOrNone = true := by
    generalize (handleFileUpload.settle o2 { s with loading := true }).1 = t at h3
    obtain ⟨data, loading, sel⟩ := t
    cases o1 with
    | fetchRejected => simpa [handleFileUpload.settle, State.reportOrNone] using h3
    | jsonRejected status => simpa [handleFileUpload.settle, State.reportOrNone] using h3
    | json status result =>
      cases result with
      | none => simp [handleFileUpload.settle, State.reportOrNone]
      | some body =>
        cases body with
        | report r => simp [handleFileUpload.settle, State.reportOrNone]
        | detail msg => simp [Outcome.reportOrFailure] at h1
  rw [hrun, hw]
  simp only [step, List.mem_singleton, if_true, commit_of_ok (Or.inl h4)]
  clear hrun hw h3 h4
  obtain ⟨data, loading, sel⟩ := s
  cases o1 <;> cases o2 <;> simp [handleFileUpload.settle]

/-- C9, amended, at two uploads from the initial state that are both answered with
status 200 and a report: the report of the late response S1 is the one held. -/
theorem handleFileUpload_last_response_wins_witness :
    (run (World.fresh State.initial)
        [ Event.change [{ name := "s1.csv" }], Event.change [{ name := "s2.csv" }],
          Event.settled 1 (Outcome.json 200 (some (ResponseBody.report threeReport))),
          Event.settled 0 (Outcome.json 200 (some (ResponseBody.report exampleReport))) ]).state.data
      = some (ResponseBody.report exampleReport) :=
  (handleFileUpload_last_response_wins State.initial { name := "s1.csv" } { name := "s2.csv" }
    (Outcome.json 200 (some (ResponseBody.report exampleReport)))
    (Outcome.json 200 (some (ResponseBody.report threeReport)))
    (by rfl) (by decide) (by decide)).2.2.2.1 200 exampleReport rfl

/-! ## Empty file selection -/

/-- C10: with an empty file selection the handler returns before anything else: every
field of the state (held report, loading flag, selected node) is unchanged, no request
is issued, no alert is raised, and no invocation is left suspended. -/
theorem handleFileUpload_empty_selection {Body : Type} (s : State Body) (o : Outcome ResponseBody)
    (w : World) :
    handleFileUpload.start [] s = (s, none)
      ∧ handleFileUpload [] o w = w
      ∧ step w (Event.change []) = w
      ∧ (step w (Event.change [])).requests = w.requests := by
  have h : step w (Event.change []) = w := by
    obtain ⟨st, mounted, requests, pending, alerts⟩ := w
    cases mounted <;> simp [step, handleFileUpload.start]
  refine ⟨by simp [handleFileUpload.start], ?_, h, by rw [h]⟩
  cases hm : w.mounted <;> simp [handleFileUpload, run, h, hm]

end Dashboard
